import Mathlib

/- Shallow embedding of the procedural terrain system of this repository
   (landscape.c, boulder.c, objects_render.c, grass.c, main.c).

   Modelling conventions:
   - C float arithmetic is idealised as exact rational (or real, where the
     code calls transcendental functions) arithmetic;
   - C signed 32-bit integer arithmetic is modelled as wrapping modulo 2^32
     on the unsigned representation;
   - the C library rand() is modelled as an oracle stream s : Nat -> Nat of
     draw results, consumed in program order at an explicit cursor; randf()
     is rand() divided by RAND_MAX;
   - arrays are modelled as functions from the flat index. -/

/-- Grid resolution of the terrain (landscape.h, LANDSCAPE_SIZE). -/
def LANDSCAPE_SIZE : ℕ := 128

/-- World-space width and depth of the terrain (landscape.h, LANDSCAPE_SCALE). -/
def LANDSCAPE_SCALE : ℚ := 200

/-- Nominal maximum terrain relief (landscape.h, LANDSCAPE_HEIGHT). -/
def LANDSCAPE_HEIGHT : ℚ := 50

/-- Water level of the scene (landscape.h, WATER_LEVEL). -/
def WATER_LEVEL : ℚ := -4

/-- RAND_MAX of the C library (glibc value), the divisor of randf. -/
def RAND_MAX : ℕ := 2147483647

/-- The randf helper of boulder.c and the rand()/RAND_MAX idiom of
objects_render.c: draw number k of the oracle stream, scaled into a rational.
The C code reads rand() / (float)RAND_MAX. -/
def randf (s : ℕ → ℕ) (k : ℕ) : ℚ := (s k : ℚ) / RAND_MAX

/-- Unsigned 32-bit representation of a wrapped C signed int value. -/
def wrap32 (n : ℤ) : ℕ := (n % (4294967296 : ℤ)).toNat

/-- hash2D from landscape.c: deterministic pseudo-random rational from integer
grid coordinates.  Mirrors, on the unsigned 32-bit representation, the C body
m = x + y*71; m = (m << 13) ^ m;
1 - (m*(m*m*15731 + 789221) + 1376312589 AND 0x7fffffff)/1073741824. -/
def hash2D (x y : ℤ) : ℚ :=
  let m0 : ℕ := wrap32 (x + y * 71)
  let m1 : ℕ := ((m0 <<< 13) % 4294967296) ^^^ m0
  let m2 : ℕ := (m1 * (m1 * m1 * 15731 + 789221) + 1376312589) % 4294967296
  1 - ((m2 &&& 0x7fffffff : ℕ) : ℚ) / 1073741824

/-- Truncation toward zero: the semantics of the C float-to-int cast used by
landscapeGetHeight and the three placement validators. -/
def cTrunc (q : ℚ) : ℤ := if 0 ≤ q then ⌊q⌋ else -⌊-q⌋

/-- Utility vector from landscape.h, rational components. -/
structure LandscapeVec3 where
  x : ℚ
  y : ℚ
  z : ℚ
deriving DecidableEq

/-- The terrain data the queries and validators read (landscape.h Landscape):
the elevation grid and the per-vertex normal grid, both indexed by the flat
index z * LANDSCAPE_SIZE + x. -/
structure Landscape where
  elevationData : ℕ → ℚ
  normals : ℕ → LandscapeVec3

/-- World x coordinate assigned by fillVerticesAndUVs (landscape.c) to grid
column i: (i / LANDSCAPE_SIZE - 0.5) * LANDSCAPE_SCALE. -/
def vertexWorldX (i : ℕ) : ℚ := ((i : ℚ) / LANDSCAPE_SIZE - 1/2) * LANDSCAPE_SCALE

/-- World z coordinate assigned by fillVerticesAndUVs (landscape.c) to grid
row j. -/
def vertexWorldZ (j : ℕ) : ℚ := ((j : ℚ) / LANDSCAPE_SIZE - 1/2) * LANDSCAPE_SCALE

/-- landscapeGetHeight from landscape.c: converts world coordinates to
fractional grid coordinates with the factor (LANDSCAPE_SIZE - 1), clamps the
base cell to the range 0 .. LANDSCAPE_SIZE-2, and bilinearly interpolates the
four corner elevations. -/
def landscapeGetHeight (land : Landscape) (x z : ℚ) : ℚ :=
  let nx := (x / LANDSCAPE_SCALE + 1/2) * ((LANDSCAPE_SIZE : ℚ) - 1)
  let nz := (z / LANDSCAPE_SCALE + 1/2) * ((LANDSCAPE_SIZE : ℚ) - 1)
  let x0 : ℤ := cTrunc nx
  let z0 : ℤ := cTrunc nz
  let x0 := if x0 < 0 then 0 else x0
  let z0 := if z0 < 0 then 0 else z0
  let x0 := if (LANDSCAPE_SIZE : ℤ) - 1 ≤ x0 then (LANDSCAPE_SIZE : ℤ) - 2 else x0
  let z0 := if (LANDSCAPE_SIZE : ℤ) - 1 ≤ z0 then (LANDSCAPE_SIZE : ℤ) - 2 else z0
  let fx := nx - (x0 : ℚ)
  let fz := nz - (z0 : ℚ)
  let h00 := land.elevationData (z0 * LANDSCAPE_SIZE + x0).toNat
  let h10 := land.elevationData (z0 * LANDSCAPE_SIZE + (x0 + 1)).toNat
  let h01 := land.elevationData ((z0 + 1) * LANDSCAPE_SIZE + x0).toNat
  let h11 := land.elevationData ((z0 + 1) * LANDSCAPE_SIZE + (x0 + 1)).toNat
  let h0 := h00 * (1 - fx) + h10 * fx
  let h1 := h01 * (1 - fx) + h11 * fx
  h0 * (1 - fz) + h1 * fz

/-- A concrete elevation field used as failing input for the grid-node
round-trip property: the elevation of flat index n is the rational n. -/
def rampLandscape : Landscape where
  elevationData := fun n => (n : ℚ)
  normals := fun _ => ⟨0, 1, 0⟩

/-- C1, failing on the code: at grid node (i, j) = (1, 0) of the elevation
field with elevation n at flat index n, the height query evaluated at that
node's vertex-array world position returns 127/128, not the stored value 1:
fillVerticesAndUVs maps column i to world x with the factor 1/LANDSCAPE_SIZE
while landscapeGetHeight maps world x back with (LANDSCAPE_SIZE - 1), so the
two mappings disagree and bilinear interpolation does not reduce to the
stored elevation at grid nodes. -/
theorem landscapeGetHeight_gridNode_mismatch :
    landscapeGetHeight rampLandscape (vertexWorldX 1) (vertexWorldZ 0) = 127 / 128 ∧
    landscapeGetHeight rampLandscape (vertexWorldX 1) (vertexWorldZ 0) ≠
      rampLandscape.elevationData (0 * LANDSCAPE_SIZE + 1) := by
  have hval : landscapeGetHeight rampLandscape (vertexWorldX 1) (vertexWorldZ 0) = 127 / 128 := by
    unfold landscapeGetHeight rampLandscape vertexWorldX vertexWorldZ cTrunc
    norm_num [LANDSCAPE_SIZE, LANDSCAPE_SCALE]
  refine ⟨hval, ?_⟩
  rw [hval]
  unfold rampLandscape
  norm_num [LANDSCAPE_SIZE]

/-- C8: hash2D is a pure function of its two integer inputs (it is a Lean
function, hence deterministic and stateless by construction) whose result
always lies in the closed interval from -1 to 1. -/
theorem hash2D_range (x y : ℤ) : -1 ≤ hash2D x y ∧ hash2D x y ≤ 1 := by
  have key : ∀ m : ℕ, m ≤ 2147483647 →
      -1 ≤ 1 - (m : ℚ) / 1073741824 ∧ 1 - (m : ℚ) / 1073741824 ≤ 1 := by
    intro m hm
    have h1 : (m : ℚ) ≤ 2147483647 := by exact_mod_cast hm
    have h0 : (0 : ℚ) ≤ (m : ℚ) := by positivity
    have hup : (m : ℚ) / 1073741824 ≤ 2 := by
      rw [div_le_iff₀ (by norm_num : (0:ℚ) < 1073741824)]
      linarith
    have hdn : (0 : ℚ) ≤ (m : ℚ) / 1073741824 := by positivity
    constructor <;> linarith
  exact key _ Nat.and_le_right

/- ----------------------------------------------------------------------
   Allocation model of landscapeCreate / landscapeDestroy (landscape.c)
   ---------------------------------------------------------------------- -/

/-- Tags for the six heap blocks landscapeCreate allocates. -/
inductive ArrTag
  | landStruct
  | elevation
  | vertices
  | normals
  | texCoords
  | indices
deriving DecidableEq

/-- Outcome of the six malloc calls in landscapeCreate; true means the
allocation succeeds. -/
structure AllocEnv where
  structOk : Bool
  elevationOk : Bool
  verticesOk : Bool
  normalsOk : Bool
  texOk : Bool
  indicesOk : Bool

/-- The five pointer fields of the Landscape struct after the allocation
phase; true means non-NULL. -/
structure LandscapeMem where
  elevationData : Bool
  vertices : Bool
  normals : Bool
  texCoords : Bool
  indices : Bool
deriving DecidableEq

/-- landscapeDestroy from landscape.c on the heap model: frees (removes from
the live-allocation list) every non-NULL array field in source order, then
the struct itself. -/
def landscapeDestroy (land : LandscapeMem) (live : List ArrTag) : List ArrTag :=
  let live := if land.elevationData then live.erase ArrTag.elevation else live
  let live := if land.vertices then live.erase ArrTag.vertices else live
  let live := if land.normals then live.erase ArrTag.normals else live
  let live := if land.texCoords then live.erase ArrTag.texCoords else live
  let live := if land.indices then live.erase ArrTag.indices else live
  live.erase ArrTag.landStruct

/-- landscapeCreate from landscape.c on the heap model: allocates the struct,
then the five backing arrays, and if any of the five array allocations failed
calls landscapeDestroy and returns none.  The second component is the list of
heap blocks still live when the function returns. -/
def landscapeCreate (env : AllocEnv) : Option LandscapeMem × List ArrTag :=
  if !env.structOk then (none, []) else
  let live := [ArrTag.landStruct]
  let live := if env.elevationOk then live ++ [ArrTag.elevation] else live
  let live := if env.verticesOk then live ++ [ArrTag.vertices] else live
  let live := if env.normalsOk then live ++ [ArrTag.normals] else live
  let live := if env.texOk then live ++ [ArrTag.texCoords] else live
  let live := if env.indicesOk then live ++ [ArrTag.indices] else live
  let land : LandscapeMem :=
    ⟨env.elevationOk, env.verticesOk, env.normalsOk, env.texOk, env.indicesOk⟩
  if !land.elevationData || !land.vertices || !land.normals ||
      !land.texCoords || !land.indices then
    (none, landscapeDestroy land live)
  else (some land, live)

/-- C9: whenever any of the five backing arrays of landscapeCreate fails to
allocate, the constructor returns a failure (none) and every heap block that
was successfully allocated - including the struct itself - has been released
when it returns, so a partially constructed Landscape is never handed to the
caller and nothing leaks. -/
theorem landscapeCreate_alloc_failure_clean (env : AllocEnv)
    (hs : env.structOk = true)
    (hfail : (env.elevationOk && env.verticesOk && env.normalsOk &&
        env.texOk && env.indicesOk) = false) :
    (landscapeCreate env).1 = none ∧ (landscapeCreate env).2 = [] := by
  rcases env with ⟨s, e, v, n, t, i⟩
  simp only at hs
  subst hs
  revert hfail
  cases e <;> cases v <;> cases n <;> cases t <;> cases i <;> decide

/-- Witness for C9: the concrete environment in which the vertex array
allocation fails. -/
theorem landscapeCreate_alloc_failure_clean_witness :
    (landscapeCreate ⟨true, true, false, true, true, true⟩).1 = none ∧
    (landscapeCreate ⟨true, true, false, true, true, true⟩).2 = [] :=
  landscapeCreate_alloc_failure_clean ⟨true, true, false, true, true, true⟩ rfl rfl

/- ----------------------------------------------------------------------
   Boulder shape noise (boulder.c)
   ---------------------------------------------------------------------- -/

/-- boulderNoise from boulder.c.  The last argument r is the value that the
randf() call inside boulderNoise returns at this evaluation: the C body is
(sinf(seed*0.13 + i*1.7 + j*2.3) + cosf(seed*0.21 + i*2.1 + j*1.3))
* 0.18 * randf(), i.e. the seed-driven trigonometric term is multiplied by a
fresh draw of the global C rand() stream. -/
noncomputable def boulderNoise (shapeSeed : ℕ) (i j : ℕ) (r : ℝ) : ℝ :=
  (Real.sin ((shapeSeed : ℝ) * 0.13 + (i : ℝ) * 1.7 + (j : ℝ) * 2.3) +
      Real.cos ((shapeSeed : ℝ) * 0.21 + (i : ℝ) * 2.1 + (j : ℝ) * 1.3)) * 0.18 * r

/-- Base vertex positions of the boulder polyhedron (boulder.c baseVerts,
28 vertices, components x, y, z). -/
def baseVerts : Fin 28 → Fin 3 → ℚ :=
  ![![0, 1, 0], ![0.8, 0.6, 0.2], ![0.5, 0.5, -0.9], ![-0.7, 0.7, -0.6],
    ![-1, 0.5, 0.4], ![0, -0.1, 1.1], ![1.1, -0.2, -0.3], ![0.4, -0.8, -1],
    ![-0.8, -0.6, -0.8], ![-1, -0.7, 0.6], ![0.6, 0.2, 0.8], ![-0.5, 0.1, 1],
    ![1, 0.1, 0.5], ![1.2, -0.5, 0.2], ![0.7, -0.7, 0.7], ![-0.2, -1, 0.2],
    ![-0.9, -0.9, -0.2], ![-0.3, -0.8, 0.9], ![0.3, 0.7, 0.7], ![0.9, -0.3, 0.9],
    ![-0.6, 0.3, 1], ![1.1, 0.3, -0.7], ![-1.1, 0.2, -0.5], ![0.2, -0.9, -0.7],
    ![-0.7, -0.8, 0.3], ![0.8, -0.7, -0.6], ![-0.3, 0.9, 0.2], ![0.5, -0.5, 1]]

/-- boulderVertexNoise from boulder.c: displaces every component of every
base vertex by boulderNoise.  The function r gives the randf() draw consumed
at component (i, j); the C loop consumes those draws sequentially in
row-major order over the 28 x 3 components. -/
noncomputable def boulderVertexNoise (shapeSeed : ℕ) (r : ℕ → ℕ → ℝ)
    (i : Fin 28) (j : Fin 3) : ℝ :=
  (baseVerts i j : ℝ) + boulderNoise shapeSeed i j (r i j)

/-- C4, failing on the code: the displaced boulder shape is not a function of
the shape seed alone.  With the same seed 0, an evaluation whose internal
randf() draws are all 0 gives displaced component (0,0) equal to 0, while an
evaluation whose draws are all 1 gives 0.18, so the two displaced vertex
arrays differ: the noise term is scaled by the global rand() stream, not
driven by the seed alone. -/
theorem boulderVertexNoise_not_seed_deterministic :
    boulderVertexNoise 0 (fun _ _ => 0) 0 0 = 0 ∧
    boulderVertexNoise 0 (fun _ _ => 1) 0 0 = 0.18 ∧
    boulderVertexNoise 0 (fun _ _ => 0) ≠ boulderVertexNoise 0 (fun _ _ => 1) := by
  have h0 : boulderVertexNoise 0 (fun _ _ => 0) 0 0 = 0 := by
    norm_num [boulderVertexNoise, boulderNoise, baseVerts]
  have h1 : boulderVertexNoise 0 (fun _ _ => 1) 0 0 = 0.18 := by
    norm_num [boulderVertexNoise, boulderNoise, baseVerts, Real.sin_zero, Real.cos_zero]
  refine ⟨h0, h1, fun hc => ?_⟩
  have hcomp := congrFun (congrFun hc 0) 0
  rw [h0, h1] at hcomp
  norm_num at hcomp

/- ----------------------------------------------------------------------
   Fractal heightfield synthesis (landscape.c)
   ---------------------------------------------------------------------- -/

/-- lerp_f from landscape.c: cosine interpolation between a and b (the C
float literal 3.1415927f is kept as the exact decimal). -/
noncomputable def lerp_f (a b t : ℝ) : ℝ :=
  let theta := t * 3.1415927
  let s := (1 - Real.cos theta) * 0.5
  a * (1 - s) + b * s

/-- smoothHash2D from landscape.c: weighted 3x3 neighbourhood average of
hash2D.  The C parameters are floats, but every call site passes values that
are exact integers (the truncated cell coordinates of interpolatedHash2D),
so the embedding takes integers; the C implicit float-to-int conversions at
the hash2D calls are then exact. -/
def smoothHash2D (x y : ℤ) : ℚ :=
  let c := (hash2D (x-1) (y-1) + hash2D (x+1) (y-1) +
            hash2D (x-1) (y+1) + hash2D (x+1) (y+1)) / 16
  let s := (hash2D (x-1) y + hash2D (x+1) y + hash2D x (y-1) + hash2D x (y+1)) / 8
  let ctr := hash2D x y / 4
  c + s + ctr

/-- Truncation toward zero of a real number: the C float-to-int cast used in
interpolatedHash2D. -/
noncomputable def cTruncR (q : ℝ) : ℤ := if 0 ≤ q then ⌊q⌋ else -⌊-q⌋

/-- interpolatedHash2D from landscape.c: cosine-smoothed bilinear blend of
the four smoothHash2D corners of the containing integer cell. -/
noncomputable def interpolatedHash2D (x y : ℝ) : ℝ :=
  let ix := cTruncR x
  let fx := x - (ix : ℝ)
  let iy := cTruncR y
  let fy := y - (iy : ℝ)
  let v1 : ℝ := (smoothHash2D ix iy : ℚ)
  let v2 : ℝ := (smoothHash2D (ix + 1) iy : ℚ)
  let v3 : ℝ := (smoothHash2D ix (iy + 1) : ℚ)
  let v4 : ℝ := (smoothHash2D (ix + 1) (iy + 1) : ℚ)
  let i1 := lerp_f v1 v2 fx
  let i2 := lerp_f v3 v4 fx
  lerp_f i1 i2 fy

/-- The octave loop of buildHeightField (landscape.c), parametric in the
noise function: the state (sum, freq, amp, maxAmp) after o iterations,
exactly as the C loop initialises and updates it.  The offsets 53 and 77 are
HEIGHTMAP_OFFSET_X and HEIGHTMAP_OFFSET_Z. -/
noncomputable def octLoop (noise : ℝ → ℝ → ℝ) (x z : ℕ) : ℕ → ℝ × ℝ × ℝ × ℝ
  | 0 => (0, 1, 1, 0)
  | o + 1 =>
    let st := octLoop noise x z o
    let sum := st.1
    let freq := st.2.1
    let amp := st.2.2.1
    let maxAmp := st.2.2.2
    let xf := ((x : ℝ) + 53) * freq / (LANDSCAPE_SIZE : ℝ) * 7
    let zf := ((z : ℝ) + 77) * freq / (LANDSCAPE_SIZE : ℝ) * 7
    (sum + noise xf zf * amp, freq * 2, amp * 0.47, maxAmp + amp)

/-- buildHeightField from landscape.c for one grid cell, parametric in the
noise function it samples (the C code samples interpolatedHash2D): four
octaves, normalisation by the total amplitude, the asymmetric east/west
directional multiplier, and the final scaling by LANDSCAPE_HEIGHT * 1.18. -/
noncomputable def buildHeightFieldWith (noise : ℝ → ℝ → ℝ) (x z : ℕ) : ℝ :=
  let st := octLoop noise x z 4
  let sum := st.1 / st.2.2.2
  let xNorm := ((x : ℝ) / (LANDSCAPE_SIZE : ℝ) - 0.5) * 2
  let sum := if xNorm > 0 then sum * (1 + xNorm * 1.3) else sum * 0.6
  sum * ((LANDSCAPE_HEIGHT : ℚ) : ℝ) * 1.18

/-- The elevation the code stores at grid cell (x, z). -/
noncomputable def buildHeightField (x z : ℕ) : ℝ :=
  buildHeightFieldWith interpolatedHash2D x z

/-- The reference elevation formula in the words of the specification: the
sum over 4 octaves of interpolated noise at frequency doubling per octave
(2 to the o) and amplitude multiplied by persistence 0.47 per octave, divided
by the total amplitude, then multiplied by 1 + 1.3 * xNorm on the east half
(xNorm positive) or by 0.6 on the west half, then by H = 50 and by 1.18. -/
noncomputable def referenceElevation (noise : ℝ → ℝ → ℝ) (x z : ℕ) : ℝ :=
  let p : ℝ := 0.47
  let totalAmp := ∑ o ∈ Finset.range 4, p ^ o
  let fractal := (∑ o ∈ Finset.range 4,
      noise (((x : ℝ) + 53) * 2 ^ o / (LANDSCAPE_SIZE : ℝ) * 7)
            (((z : ℝ) + 77) * 2 ^ o / (LANDSCAPE_SIZE : ℝ) * 7) * p ^ o) / totalAmp
  let xNorm := ((x : ℝ) / (LANDSCAPE_SIZE : ℝ) - 0.5) * 2
  let directional := if xNorm > 0 then 1 + 1.3 * xNorm else (0.6 : ℝ)
  fractal * directional * 50 * 1.18

/-- Closed form of the octave loop state after n iterations. -/
lemma octLoop_closed (noise : ℝ → ℝ → ℝ) (x z : ℕ) (n : ℕ) :
    octLoop noise x z n =
      (∑ o ∈ Finset.range n,
          noise (((x : ℝ) + 53) * 2 ^ o / (LANDSCAPE_SIZE : ℝ) * 7)
                (((z : ℝ) + 77) * 2 ^ o / (LANDSCAPE_SIZE : ℝ) * 7) * (0.47 : ℝ) ^ o,
        2 ^ n, (0.47 : ℝ) ^ n, ∑ o ∈ Finset.range n, (0.47 : ℝ) ^ o) := by
  induction n with
  | zero => simp [octLoop]
  | succ n ih =>
    simp only [octLoop, ih]
    simp only [Prod.mk.injEq]
    refine ⟨?_, ?_, ?_, ?_⟩
    · rw [Finset.sum_range_succ]
    · ring
    · rw [pow_succ]
    · rw [Finset.sum_range_succ]

/-- C5: for every grid cell (x, z), the synthesized elevation equals the
reference formula of the specification applied to the same interpolated
noise: fractal summation over 4 octaves with persistence 0.47, amplitude
normalisation, the east amplification 1 + 1.3 * xNorm for positive xNorm or
the west flattening 0.6, and the final factor 50 * 1.18. -/
theorem buildHeightField_matches_reference (x z : ℕ) :
    buildHeightField x z = referenceElevation interpolatedHash2D x z := by
  unfold buildHeightField buildHeightFieldWith referenceElevation
  rw [octLoop_closed]
  simp only [LANDSCAPE_HEIGHT]
  push_cast
  split_ifs <;> ring

/- ----------------------------------------------------------------------
   Slope sampling shared (by source duplication) by the three validators
   ---------------------------------------------------------------------- -/

/-- The world-to-grid clamp-and-sample block that isValidBoulderLocation
(boulder.c), getSlopeAt (objects_render.c) and isValidGrassLocation
(grass.c) each duplicate: the flat index of the grid cell whose stored
normal is sampled at world position (x, z). -/
def gridIndexAt (x z : ℚ) : ℕ :=
  let nx := (x / LANDSCAPE_SCALE + 1/2) * ((LANDSCAPE_SIZE : ℚ) - 1)
  let nz := (z / LANDSCAPE_SCALE + 1/2) * ((LANDSCAPE_SIZE : ℚ) - 1)
  let ix : ℤ := cTrunc nx
  let iz : ℤ := cTrunc nz
  let ix := if ix < 0 then 0 else ix
  let iz := if iz < 0 then 0 else iz
  let ix := if (LANDSCAPE_SIZE : ℤ) - 1 ≤ ix then (LANDSCAPE_SIZE : ℤ) - 2 else ix
  let iz := if (LANDSCAPE_SIZE : ℤ) - 1 ≤ iz then (LANDSCAPE_SIZE : ℤ) - 2 else iz
  (iz * LANDSCAPE_SIZE + ix).toNat

/-- The slope angle in radians at a world position: arccos of the clamped y
component of the sampled vertex normal, the acosf(fminf(fmaxf(ny, -1), 1))
idiom of the three validators. -/
noncomputable def slopeRadAt (land : Landscape) (x z : ℚ) : ℝ :=
  Real.arccos ((min 1 (max (-1) (land.normals (gridIndexAt x z)).y) : ℚ) : ℝ)

/-- getSlopeAt from objects_render.c: the slope angle normalised to [0, 1] by
dividing by pi.  isValidBoulderLocation computes the same quantity inline. -/
noncomputable def getSlopeAt (land : Landscape) (x z : ℚ) : ℝ :=
  slopeRadAt land x z / Real.pi

/- ----------------------------------------------------------------------
   Boulder scatterer (boulder.c)
   ---------------------------------------------------------------------- -/

/-- TreeInstance from objects_render.h. -/
structure TreeInstance where
  x : ℚ
  y : ℚ
  z : ℚ
  scale : ℚ
  depth : ℕ
  rotation : ℚ
  branchBias : ℕ
  leafColorIndex : ℕ

/-- BoulderInstance from boulder.h. -/
structure BoulderInstance where
  x : ℚ
  y : ℚ
  z : ℚ
  scale : ℚ
  rotation : ℚ
  shapeSeed : ℕ
  colorIndex : ℕ

/-- boulderCollides from boulder.c: some tree in the treeInstances array is
closer in squared horizontal distance than minDist + tree.scale * 0.5. -/
def boulderCollides (trees : List TreeInstance) (x z minDist : ℚ) : Prop :=
  ∃ t ∈ trees, (x - t.x) ^ 2 + (z - t.z) ^ 2 < (minDist + t.scale * (1/2)) ^ 2

/-- isValidBoulderLocation from boulder.c: conjunction of the three
early-return rejections of the C body - normalised slope at most 0.25,
height at least WATER_LEVEL + 0.5, and no tree within collision distance
4.0. -/
def isValidBoulderLocation (land : Landscape) (trees : List TreeInstance)
    (x z y : ℚ) : Prop :=
  ¬(getSlopeAt land x z > 1/4) ∧ ¬(y < WATER_LEVEL + 1/2) ∧
    ¬ boulderCollides trees x z 4

/-- boulderRandomScale from boulder.c, consuming the three randf draws at
cursor positions k, k+1, k+2. -/
def boulderRandomScale (s : ℕ → ℕ) (k : ℕ) : ℚ :=
  let a := randf s k
  let b := randf s (k+1)
  let c := randf s (k+2)
  1.2 + a * 2.8 + b * c * 1.2

open Classical in
/-- generateRandomBoulder from boulder.c, at rand() cursor k: the produced
boulder (none when the drawn location fails validation) and the new cursor.
Draw order matches the C body: x, z, then on success the three scale draws,
the rotation draw, the shape seed draw and the color index draw. -/
noncomputable def generateRandomBoulder (land : Landscape)
    (trees : List TreeInstance) (s : ℕ → ℕ) (k : ℕ) :
    Option BoulderInstance × ℕ :=
  let halfScale := LANDSCAPE_SCALE * (1/2) * 0.95
  let x := -halfScale + randf s k * LANDSCAPE_SCALE * 0.95
  let z := -halfScale + randf s (k+1) * LANDSCAPE_SCALE * 0.95
  let y := landscapeGetHeight land x z
  if isValidBoulderLocation land trees x z y then
    (some ⟨x, y, z, boulderRandomScale s (k+2), randf s (k+5) * 360,
      s (k+6), s (k+7) % 8⟩, k + 8)
  else (none, k + 2)

open Classical in
/-- The while loop of initBoulders (boulder.c): the length of acc plays the
role of numBoulders, attempts is the attempt counter, and the guard with the
attempt cap NUM_BOULDERS * 10 = 500 is the C loop condition. -/
noncomputable def initBouldersLoop (land : Landscape) (trees : List TreeInstance)
    (s : ℕ → ℕ) (k attempts : ℕ) (acc : List BoulderInstance) :
    List BoulderInstance × ℕ :=
  if h : acc.length < 50 ∧ attempts < 500 then
    match generateRandomBoulder land trees s k with
    | (some b, k1) => initBouldersLoop land trees s k1 (attempts + 1) (acc ++ [b])
    | (none, k1) => initBouldersLoop land trees s k1 (attempts + 1) acc
  else (acc, attempts)
termination_by 500 - attempts
decreasing_by
  all_goals omega

/-- initBoulders from boulder.c: the placement loop started on an empty
array with zero attempts at rand() cursor 0.  The tree list stands for the
treeInstances global read by boulderCollides.  Returns the stored boulders
and the number of attempts consumed. -/
noncomputable def initBoulders (land : Landscape) (trees : List TreeInstance)
    (s : ℕ → ℕ) : List BoulderInstance × ℕ :=
  initBouldersLoop land trees s 0 0 []

/- ----------------------------------------------------------------------
   Tree scatterer (objects_render.c)
   ---------------------------------------------------------------------- -/

/-- ObjectPlacementParams from objects_render.h. -/
structure ObjectPlacementParams where
  minSlope : ℚ
  maxSlope : ℚ
  minHeight : ℚ
  maxHeight : ℚ
  minDistanceFromWater : ℚ
  density : ℕ

/-- The tree placement parameter block built in initLandscapeObjects. -/
def treeParams : ObjectPlacementParams where
  minSlope := 0
  maxSlope := 0.35
  minHeight := WATER_LEVEL + 1.5
  maxHeight := LANDSCAPE_HEIGHT * 1.2
  minDistanceFromWater := 1
  density := 15

/-- isValidTreeLocation from objects_render.c: conjunction of the four
early-return rejections - height within the parameter bounds, normalised
slope within the parameter bounds, and height above water by at least the
water-distance parameter. -/
def isValidTreeLocation (land : Landscape) (x z : ℚ)
    (params : ObjectPlacementParams) : Prop :=
  let y := landscapeGetHeight land x z
  ¬(y < params.minHeight) ∧ ¬(y > params.maxHeight) ∧
    ¬(getSlopeAt land x z < (params.minSlope : ℝ) ∨
      getSlopeAt land x z > (params.maxSlope : ℝ)) ∧
    ¬(y - WATER_LEVEL < params.minDistanceFromWater)

/-- makeRandomTreeInstance from objects_render.c at rand() cursor k: scale,
depth, rotation, branch bias and leaf color are drawn in that order. -/
def makeRandomTreeInstance (s : ℕ → ℕ) (k : ℕ) (x y z : ℚ) : TreeInstance :=
  ⟨x, y, z, 1.8 + randf s k * 2.2, 4 + s (k+1) % 2, randf s (k+2) * 360,
    s (k+3), s (k+4) % 5⟩

open Classical in
/-- One iteration of the placement grid loop of initLandscapeObjects
(objects_render.c) for grid cell (i, j): draws the jittered position (two
randf draws), validates it, and on success samples the height and stores a
random tree instance (five further draws). -/
noncomputable def treeStep (land : Landscape) (s : ℕ → ℕ) (i j : ℕ)
    (st : List TreeInstance × ℕ) : List TreeInstance × ℕ :=
  let acc := st.1
  let k := st.2
  let grid := treeParams.density
  let halfScale := LANDSCAPE_SCALE * (1/2) * 0.95
  let step := (LANDSCAPE_SCALE * 0.95) / (grid : ℚ)
  let x := -halfScale + (i : ℚ) * step + (randf s k - 1/2) * step * (1/2)
  let z := -halfScale + (j : ℚ) * step + (randf s (k+1) - 1/2) * step * (1/2)
  if isValidTreeLocation land x z treeParams then
    let y := landscapeGetHeight land x z
    (acc ++ [makeRandomTreeInstance s (k+2) x y z], k + 7)
  else (acc, k + 2)

/-- initLandscapeObjects from objects_render.c: the density x density jittered
placement grid, iterated in row-major order (outer loop i, inner loop j),
starting from an empty instance array at rand() cursor 0. -/
noncomputable def initLandscapeObjects (land : Landscape) (s : ℕ → ℕ) :
    List TreeInstance × ℕ :=
  (List.range treeParams.density).foldl
    (fun st i => (List.range treeParams.density).foldl
      (fun st2 j => treeStep land s i j st2) st)
    ([], 0)

/- ----------------------------------------------------------------------
   Grass scatterer (grass.c)
   ---------------------------------------------------------------------- -/

/-- GrassVertex from grass.c.  All components are rationals except the
rotation, which the C code draws uniformly in [0, 2 pi). -/
structure GrassVertex where
  x : ℚ
  y : ℚ
  z : ℚ
  swaySeed : ℚ
  offsetX : ℚ
  offsetY : ℚ
  bladeHeight : ℚ
  bladeWidth : ℚ
  colorVar : ℚ
  rotation : ℝ

/-- randomFloat from grass.c: a random value between a and b, consuming the
rand() draw at cursor k. -/
def randomFloat (a b : ℚ) (s : ℕ → ℕ) (k : ℕ) : ℚ :=
  a + randf s k * (b - a)

/-- isValidGrassLocation from grass.c: the height is at least
WATER_LEVEL + 0.2 (first early return) and the slope at the sampled grid
cell, converted to degrees, is at most 32. -/
def isValidGrassLocation (land : Landscape) (x z y : ℚ) : Prop :=
  ¬(y < WATER_LEVEL + 0.2) ∧
    slopeRadAt land x z * (180 / Real.pi) ≤ 32

open Classical in
/-- generateGrassBlade from grass.c at state (emitted vertices, rand()
cursor): draws a position (two draws), validates it, and on success draws
the per-blade attributes (sway seed, height, width, color variance,
rotation, discrete color band) and appends the three triangle vertices; a
rejected draw leaves the vertex list unchanged. -/
noncomputable def generateGrassBlade (land : Landscape) (areaSize : ℚ)
    (s : ℕ → ℕ) (st : List GrassVertex × ℕ) : List GrassVertex × ℕ :=
  let verts := st.1
  let k := st.2
  let clampFactor : ℚ := 0.98
  let halfScale := areaSize * (1/2) * clampFactor
  let x := randomFloat (-halfScale) halfScale s k
  let z := randomFloat (-halfScale) halfScale s (k+1)
  let y := landscapeGetHeight land x z
  if isValidGrassLocation land x z y then
    let swaySeed := randomFloat 0 1 s (k+2)
    let bladeHeight := randomFloat 0.7 1.5 s (k+3)
    let bladeWidth := randomFloat 0.05 0.13 s (k+4)
    let colorVar := randomFloat (-0.08) 0.08 s (k+5)
    let rotation : ℝ := (randf s (k+6) : ℚ) * (2 * Real.pi)
    let colorIndex := s (k+7) % 4
    let cv := colorVar + (colorIndex : ℚ) * 0.25
    let v0 : GrassVertex := ⟨x, y, z, swaySeed, 0, 0, bladeHeight, bladeWidth, cv, rotation⟩
    let v1 : GrassVertex := ⟨x, y, z, swaySeed, bladeWidth, 0, bladeHeight, bladeWidth, cv, rotation⟩
    let v2 : GrassVertex := ⟨x, y, z, swaySeed, bladeWidth / 2, bladeHeight, bladeHeight, bladeWidth, cv, rotation⟩
    (verts ++ [v0, v1, v2], k + 8)
  else (verts, k + 2)

/-- generateGrassBlades from grass.c: numBlades attempts, each one call of
generateGrassBlade on the running state, starting from an empty buffer at
rand() cursor 0. -/
noncomputable def generateGrassBlades (land : Landscape) (areaSize : ℚ)
    (s : ℕ → ℕ) (numBlades : ℕ) : List GrassVertex × ℕ :=
  (List.range numBlades).foldl (fun st _ => generateGrassBlade land areaSize s st) ([], 0)

/-- grassSystemInit from grass.c: generates the blades and records the
requested count numBlades in the grassCount global (the C code sets
grassCount = numBlades before generation).  Returns the emitted vertex
buffer and the recorded count. -/
noncomputable def grassSystemInit (land : Landscape) (areaSize : ℚ)
    (s : ℕ → ℕ) (numBlades : ℕ) : List GrassVertex × ℕ :=
  ((generateGrassBlades land areaSize s numBlades).1, numBlades)

/-- Modelled from the spec: the scene generation order.  The scatterer
initialisation calls are absent from the merge-conflicted main.c of the
repository, so the orchestration is taken from the specification (section 5):
the terrain exists first, then the scatterers run once, sequentially, with
the tree array populated before the boulder pass reads it and never
regenerated afterwards.  Returns the final tree, boulder and grass-vertex
arrays of the generated scene. -/
noncomputable def generateScene (land : Landscape) (s1 s2 s3 : ℕ → ℕ)
    (areaSize : ℚ) (numBlades : ℕ) :
    List TreeInstance × List BoulderInstance × List GrassVertex :=
  let trees := (initLandscapeObjects land s1).1
  let boulders := (initBoulders land trees s2).1
  let grass := (generateGrassBlades land areaSize s3 numBlades).1
  (trees, boulders, grass)

/- ----------------------------------------------------------------------
   Invariants of the boulder placement loop
   ---------------------------------------------------------------------- -/

/-- Every boulder generateRandomBoulder returns was accepted by
isValidBoulderLocation at its own stored position and height. -/
lemma generateRandomBoulder_some {land : Landscape} {trees : List TreeInstance}
    {s : ℕ → ℕ} {k : ℕ} {b : BoulderInstance} {k1 : ℕ}
    (h : generateRandomBoulder land trees s k = (some b, k1)) :
    isValidBoulderLocation land trees b.x b.z b.y := by
  simp only [generateRandomBoulder] at h
  split at h
  case isTrue hv =>
    rw [Prod.mk.injEq, Option.some.injEq] at h
    obtain ⟨hb, -⟩ := h
    subst hb
    exact hv
  case isFalse hv =>
    simp at h

/-- Main invariant of the initBoulders while loop: starting from a state
with at most 50 stored boulders, all of them individually validated, the
loop returns at most 50 boulders, all individually validated, and a final
attempt counter of at most 500. -/
lemma initBouldersLoop_spec (land : Landscape) (trees : List TreeInstance)
    (s : ℕ → ℕ) :
    ∀ (n k attempts : ℕ) (acc : List BoulderInstance),
      500 - attempts ≤ n → attempts ≤ 500 → acc.length ≤ 50 →
      acc.Forall (fun b => isValidBoulderLocation land trees b.x b.z b.y) →
      (initBouldersLoop land trees s k attempts acc).1.length ≤ 50 ∧
      (initBouldersLoop land trees s k attempts acc).1.Forall
        (fun b => isValidBoulderLocation land trees b.x b.z b.y) ∧
      (initBouldersLoop land trees s k attempts acc).2 ≤ 500 := by
  intro n
  induction n with
  | zero =>
    intro k attempts acc hn hatt hlen hall
    rw [initBouldersLoop]
    have hg : ¬(acc.length < 50 ∧ attempts < 500) := by omega
    rw [dif_neg hg]
    exact ⟨hlen, hall, hatt⟩
  | succ n ih =>
    intro k attempts acc hn hatt hlen hall
    rw [initBouldersLoop]
    by_cases hg : acc.length < 50 ∧ attempts < 500
    · rw [dif_pos hg]
      rcases hgen : generateRandomBoulder land trees s k with ⟨ob, k1⟩
      cases ob with
      | some b =>
        simp only [hgen]
        apply ih k1 (attempts + 1) (acc ++ [b]) (by omega) (by omega)
        · simp only [List.length_append, List.length_singleton]
          omega
        · rw [List.forall_iff_forall_mem] at hall ⊢
          intro c hc
          rcases List.mem_append.mp hc with hc | hc
          · exact hall c hc
          · rw [List.mem_singleton] at hc
            subst hc
            exact generateRandomBoulder_some hgen
      | none =>
        simp only [hgen]
        exact ih k1 (attempts + 1) acc (by omega) (by omega) hlen hall
    · rw [dif_neg hg]
      exact ⟨hlen, hall, hatt⟩

/-- C6: on a terrain with no trees placed, initBoulders returns with an
attempt counter of at most 50 * 10 = 500, stores at most 50 boulders, and
every stored boulder has normalised slope (arccos of the clamped sampled
normal y component, divided by pi) at most 0.25 at its grid cell and height
at least WATER_LEVEL + 0.5. -/
theorem initBoulders_no_trees_spec (land : Landscape) (s : ℕ → ℕ) :
    (initBoulders land [] s).2 ≤ 500 ∧
    (initBoulders land [] s).1.length ≤ 50 ∧
    (initBoulders land [] s).1.Forall
      (fun b => getSlopeAt land b.x b.z ≤ 1/4 ∧ WATER_LEVEL + 1/2 ≤ b.y) := by
  unfold initBoulders
  obtain ⟨hlen, hall, hatt⟩ :=
    initBouldersLoop_spec land [] s 500 0 0 [] (by omega) (by omega)
      (by simp) (by trivial)
  refine ⟨hatt, hlen, ?_⟩
  rw [List.forall_iff_forall_mem] at hall ⊢
  intro b hb
  obtain ⟨h1, h2, -⟩ := hall b hb
  exact ⟨not_lt.mp h1, not_lt.mp h2⟩

/-- C3: every boulder stored by initBoulders keeps horizontal euclidean
distance at least 4.0 + tree.scale * 0.5 from every tree that was in the
tree instance array when the boulders were placed. -/
theorem boulders_tree_min_distance (land : Landscape) (trees : List TreeInstance)
    (s : ℕ → ℕ) :
    (initBoulders land trees s).1.Forall (fun b =>
      trees.Forall (fun t =>
        (4 : ℝ) + (t.scale : ℝ) * 0.5 ≤
          Real.sqrt (((b.x : ℝ) - (t.x : ℝ)) ^ 2 + ((b.z : ℝ) - (t.z : ℝ)) ^ 2))) := by
  unfold initBoulders
  obtain ⟨-, hall, -⟩ :=
    initBouldersLoop_spec land trees s 500 0 0 [] (by omega) (by omega)
      (by simp) (by trivial)
  rw [List.forall_iff_forall_mem] at hall ⊢
  intro b hb
  obtain ⟨-, -, hnc⟩ := hall b hb
  rw [List.forall_iff_forall_mem]
  intro t ht
  have hq : (4 + t.scale * (1/2)) ^ 2 ≤ (b.x - t.x) ^ 2 + (b.z - t.z) ^ 2 := by
    by_contra hc
    exact hnc ⟨t, ht, lt_of_not_le hc⟩
  have hr : ((4 : ℝ) + (t.scale : ℝ) * 0.5) ^ 2 ≤
      ((b.x : ℝ) - (t.x : ℝ)) ^ 2 + ((b.z : ℝ) - (t.z : ℝ)) ^ 2 := by
    have h2 : (((4 + t.scale * (1/2)) ^ 2 : ℚ) : ℝ) ≤
        (((b.x - t.x) ^ 2 + (b.z - t.z) ^ 2 : ℚ) : ℝ) := by
      exact_mod_cast hq
    push_cast at h2
    norm_num at h2 ⊢
    linarith
  rcases le_or_lt ((4 : ℝ) + (t.scale : ℝ) * 0.5) 0 with hm | hm
  · exact le_trans hm (Real.sqrt_nonneg _)
  · rw [Real.le_sqrt (le_of_lt hm) (by positivity)]
    exact hr

/- ----------------------------------------------------------------------
   Post-hoc validation of all three scatterers
   ---------------------------------------------------------------------- -/

/-- A foldl preserves any invariant each step preserves. -/
lemma foldl_preserve {α β : Type} (P : β → Prop) (f : β → α → β)
    (hf : ∀ b a, P b → P (f b a)) :
    ∀ (l : List α) (b : β), P b → P (l.foldl f b) := by
  intro l
  induction l with
  | nil => intro b hb; exact hb
  | cons a l ih => intro b hb; exact ih _ (hf _ _ hb)

/-- One tree placement step preserves validity of every stored tree. -/
lemma treeStep_preserves (land : Landscape) (s : ℕ → ℕ) (i j : ℕ)
    (st : List TreeInstance × ℕ)
    (hst : st.1.Forall (fun t => isValidTreeLocation land t.x t.z treeParams)) :
    (treeStep land s i j st).1.Forall
      (fun t => isValidTreeLocation land t.x t.z treeParams) := by
  simp only [treeStep]
  split
  case isTrue hv =>
    rw [List.forall_iff_forall_mem] at hst ⊢
    intro c hc
    rcases List.mem_append.mp hc with hc | hc
    · exact hst c hc
    · rw [List.mem_singleton] at hc
      subst hc
      exact hv
  case isFalse hv => exact hst

/-- Every tree stored by initLandscapeObjects passes isValidTreeLocation at
its own stored position. -/
lemma initLandscapeObjects_valid (land : Landscape) (s : ℕ → ℕ) :
    (initLandscapeObjects land s).1.Forall
      (fun t => isValidTreeLocation land t.x t.z treeParams) := by
  unfold initLandscapeObjects
  apply foldl_preserve
            (fun st : List TreeInstance × ℕ =>
              st.1.Forall (fun t => isValidTreeLocation land t.x t.z treeParams))
  · intro st i hst
    apply foldl_preserve
            (fun st : List TreeInstance × ℕ =>
              st.1.Forall (fun t => isValidTreeLocation land t.x t.z treeParams))
    · intro st2 j hst2
      exact treeStep_preserves land s i j st2 hst2
    · exact hst
  · trivial

/-- One grass generation step preserves validity of every emitted vertex. -/
lemma generateGrassBlade_preserves (land : Landscape) (areaSize : ℚ)
    (s : ℕ → ℕ) (st : List GrassVertex × ℕ)
    (hst : st.1.Forall (fun v => isValidGrassLocation land v.x v.z v.y)) :
    (generateGrassBlade land areaSize s st).1.Forall
      (fun v => isValidGrassLocation land v.x v.z v.y) := by
  simp only [generateGrassBlade]
  split
  case isTrue hv =>
    rw [List.forall_iff_forall_mem] at hst ⊢
    intro c hc
    rcases List.mem_append.mp hc with hc | hc
    · exact hst c hc
    · simp only [List.mem_cons, List.not_mem_nil, or_false] at hc
      rcases hc with hc | hc | hc <;> (subst hc; exact hv)
  case isFalse hv => exact hst

/-- Every grass vertex emitted by generateGrassBlades passes
isValidGrassLocation at its own stored position and height. -/
lemma generateGrassBlades_valid (land : Landscape) (areaSize : ℚ)
    (s : ℕ → ℕ) (numBlades : ℕ) :
    (generateGrassBlades land areaSize s numBlades).1.Forall
      (fun v => isValidGrassLocation land v.x v.z v.y) := by
  unfold generateGrassBlades
  apply foldl_preserve
          (fun st : List GrassVertex × ℕ =>
            st.1.Forall (fun v => isValidGrassLocation land v.x v.z v.y))
  · intro st i hst
    exact generateGrassBlade_preserves land areaSize s st hst
  · trivial

/-- C2: in the generated scene, every stored tree is accepted post-hoc by
isValidTreeLocation, every stored boulder is accepted post-hoc by
isValidBoulderLocation evaluated against the final tree array, and every
emitted grass vertex is accepted post-hoc by isValidGrassLocation, each at
its own stored position (and, for boulders and grass, stored height). -/
theorem scatterers_validate_post_hoc (land : Landscape) (s1 s2 s3 : ℕ → ℕ)
    (areaSize : ℚ) (numBlades : ℕ) :
    (generateScene land s1 s2 s3 areaSize numBlades).1.Forall
      (fun t => isValidTreeLocation land t.x t.z treeParams) ∧
    (generateScene land s1 s2 s3 areaSize numBlades).2.1.Forall
      (fun b => isValidBoulderLocation land
        (generateScene land s1 s2 s3 areaSize numBlades).1 b.x b.z b.y) ∧
    (generateScene land s1 s2 s3 areaSize numBlades).2.2.Forall
      (fun v => isValidGrassLocation land v.x v.z v.y) := by
  refine ⟨initLandscapeObjects_valid land s1, ?_, generateGrassBlades_valid land areaSize s3 numBlades⟩
  show (initBoulders land (initLandscapeObjects land s1).1 s2).1.Forall _
  unfold initBoulders
  obtain ⟨-, hall, -⟩ :=
    initBouldersLoop_spec land (initLandscapeObjects land s1).1 s2 500 0 0 []
      (by omega) (by omega) (by simp) (by trivial)
  exact hall

/- ----------------------------------------------------------------------
   Grass generation counts
   ---------------------------------------------------------------------- -/

/-- One grass draw either emits exactly the three vertices of one blade or
emits nothing. -/
lemma generateGrassBlade_length (land : Landscape) (areaSize : ℚ)
    (s : ℕ → ℕ) (st : List GrassVertex × ℕ) :
    (generateGrassBlade land areaSize s st).1.length = st.1.length + 3 ∨
    (generateGrassBlade land areaSize s st).1.length = st.1.length := by
  simp only [generateGrassBlade]
  split
  · left
    simp
  · right
    rfl

/-- Emitted vertex count of the grass generation loop: at most 3 per
requested blade, and always a multiple of 3. -/
lemma generateGrassBlades_length (land : Landscape) (areaSize : ℚ)
    (s : ℕ → ℕ) :
    ∀ n : ℕ, (generateGrassBlades land areaSize s n).1.length ≤ 3 * n ∧
      3 ∣ (generateGrassBlades land areaSize s n).1.length := by
  intro n
  induction n with
  | zero => simp [generateGrassBlades]
  | succ n ih =>
    obtain ⟨hle, hdvd⟩ := ih
    unfold generateGrassBlades at *
    rw [List.range_succ, List.foldl_append, List.foldl_cons, List.foldl_nil]
    rcases generateGrassBlade_length land areaSize s
        ((List.range n).foldl (fun st _ => generateGrassBlade land areaSize s st) ([], 0)) with h | h
    · rw [h]
      exact ⟨by omega, by omega⟩
    · rw [h]
      exact ⟨by omega, hdvd⟩

/-- C7 (amended): grass generation always completes; each accepted draw
emits exactly 3 vertices and each rejected draw emits none (the slot is
skipped, never retried), so the emitted vertex count is a multiple of 3 and
at most 3 per requested blade; requesting 0 blades yields an empty buffer;
and the count the system records (grassCount) is the requested count
numBlades, not the emitted count. -/
theorem grass_generation_counts (land : Landscape) (areaSize : ℚ)
    (s : ℕ → ℕ) (n : ℕ) (st : List GrassVertex × ℕ) :
    ((generateGrassBlade land areaSize s st).1.length = st.1.length + 3 ∨
     (generateGrassBlade land areaSize s st).1.length = st.1.length) ∧
    (generateGrassBlades land areaSize s n).1.length ≤ 3 * n ∧
    3 ∣ (generateGrassBlades land areaSize s n).1.length ∧
    (grassSystemInit land areaSize s n).2 = n ∧
    (generateGrassBlades land areaSize s 0).1 = [] := by
  obtain ⟨hle, hdvd⟩ := generateGrassBlades_length land areaSize s n
  exact ⟨generateGrassBlade_length land areaSize s st, hle, hdvd, rfl, rfl⟩

/-- A flat landscape lying entirely below the water rejection threshold,
used as the failing input of the reported-count reading of C7. -/
def deepWaterLandscape : Landscape where
  elevationData := fun _ => -10
  normals := fun _ => ⟨0, 1, 0⟩

/-- Bilinear interpolation of the constant field -10 is -10 everywhere. -/
lemma deepWater_height (x z : ℚ) :
    landscapeGetHeight deepWaterLandscape x z = -10 := by
  simp only [landscapeGetHeight, deepWaterLandscape]
  ring

/-- No position of the deep-water landscape is valid for grass. -/
lemma deepWater_grass_invalid (x z : ℚ) :
    ¬ isValidGrassLocation deepWaterLandscape x z
      (landscapeGetHeight deepWaterLandscape x z) := by
  intro hv
  obtain ⟨h1, -⟩ := hv
  rw [deepWater_height] at h1
  norm_num [WATER_LEVEL] at h1

/-- On the deep-water landscape every grass draw is rejected: the vertex
buffer is unchanged and the rand() cursor advances by the two position
draws. -/
lemma grassStep_rejects (st : List GrassVertex × ℕ) :
    generateGrassBlade deepWaterLandscape 200 (fun _ => 0) st = (st.1, st.2 + 2) := by
  simp only [generateGrassBlade]
  rw [if_neg (deepWater_grass_invalid _ _)]

/-- Counterexample to C7 as stated: requesting 1 grass blade on the
deep-water landscape with the all-zero rand() stream emits no blade at all,
yet the count the system records (grassCount) is 1, so the reported blade
count does not reflect the emitted blade count. -/
theorem grass_reported_count_counterexample :
    (grassSystemInit deepWaterLandscape 200 (fun _ => 0) 1).1 = [] ∧
    (grassSystemInit deepWaterLandscape 200 (fun _ => 0) 1).2 = 1 := by
  constructor
  · show (generateGrassBlades deepWaterLandscape 200 (fun _ => 0) 1).1 = []
    have hr1 : List.range 1 = [0] := rfl
    simp only [generateGrassBlades, hr1, List.foldl_cons, List.foldl_nil]
    rw [grassStep_rejects]
  · rfl

/- ----------------------------------------------------------------------
   Terrain mesh and vertex normals (landscape.c)
   ---------------------------------------------------------------------- -/

/-- The position fillVerticesAndUVs stores for the vertex with flat index
idx = z * LANDSCAPE_SIZE + x: the world coordinates of grid point (x, z)
with the elevation as y. -/
def vertexPos (e : ℕ → ℚ) (idx : ℕ) : LandscapeVec3 :=
  ⟨vertexWorldX (idx % LANDSCAPE_SIZE), e idx, vertexWorldZ (idx / LANDSCAPE_SIZE)⟩

/-- fillIndices from landscape.c: the triangle list of the terrain mesh in
emission order - for every quad (z, x), first (tl, bl, tr), then
(tr, bl, br). -/
def fillIndices : List (ℕ × ℕ × ℕ) :=
  (List.range (LANDSCAPE_SIZE - 1)).bind fun z =>
    (List.range (LANDSCAPE_SIZE - 1)).bind fun x =>
      let tl := z * LANDSCAPE_SIZE + x
      let tr := tl + 1
      let bl := (z + 1) * LANDSCAPE_SIZE + x
      let br := bl + 1
      [(tl, bl, tr), (tr, bl, br)]

/-- The face normal computeNormals derives for a triangle (i1, i2, i3): the
cross product of the edge vectors v2 - v1 and v3 - v1 of the stored vertex
positions. -/
def faceNormal (e : ℕ → ℚ) (t : ℕ × ℕ × ℕ) : LandscapeVec3 :=
  let v1 := vertexPos e t.1
  let v2 := vertexPos e t.2.1
  let v3 := vertexPos e t.2.2
  let ux := v2.x - v1.x
  let uy := v2.y - v1.y
  let uz := v2.z - v1.z
  let vx := v3.x - v1.x
  let vy := v3.y - v1.y
  let vz := v3.z - v1.z
  ⟨uy * vz - uz * vy, uz * vx - ux * vz, ux * vy - uy * vx⟩

/-- Adding a vector into one slot of the normal accumulation array. -/
def addAt (f : ℕ → LandscapeVec3) (i : ℕ) (n : LandscapeVec3) : ℕ → LandscapeVec3 :=
  fun v => if v = i then ⟨(f v).x + n.x, (f v).y + n.y, (f v).z + n.z⟩ else f v

/-- One iteration of the accumulation loop of computeNormals: the triangle's
face normal is added into the normal slots of its three vertex indices. -/
def accumStep (e : ℕ → ℚ) (f : ℕ → LandscapeVec3) (t : ℕ × ℕ × ℕ) : ℕ → LandscapeVec3 :=
  addAt (addAt (addAt f t.1 (faceNormal e t)) t.2.1 (faceNormal e t)) t.2.2 (faceNormal e t)

/-- The accumulation phase of computeNormals over a triangle list, starting
from the zeroed normal array. -/
def accumNormals (e : ℕ → ℚ) (l : List (ℕ × ℕ × ℕ)) : ℕ → LandscapeVec3 :=
  l.foldl (accumStep e) (fun _ => ⟨0, 0, 0⟩)

/-- The normalisation phase of computeNormals: a vector is scaled to unit
length when its length is positive (the len > 0 guard of the C code) and
left unchanged otherwise. -/
noncomputable def normalizeVec (n : LandscapeVec3) : ℝ × ℝ × ℝ :=
  let len := Real.sqrt ((n.x : ℝ) ^ 2 + (n.y : ℝ) ^ 2 + (n.z : ℝ) ^ 2)
  if len > 0 then ((n.x : ℝ) / len, (n.y : ℝ) / len, (n.z : ℝ) / len)
  else ((n.x : ℝ), (n.y : ℝ), (n.z : ℝ))

/-- The vertex normal computeNormals stores at flat index v for the mesh
with elevation field e. -/
noncomputable def vertexNormal (e : ℕ → ℚ) (v : ℕ) : ℝ × ℝ × ℝ :=
  normalizeVec (accumNormals e fillIndices v)

/-- Membership in the terrain triangle list, characterised by the generating
quad. -/
lemma mem_fillIndices {t : ℕ × ℕ × ℕ} :
    t ∈ fillIndices ↔ ∃ z < LANDSCAPE_SIZE - 1, ∃ x < LANDSCAPE_SIZE - 1,
      t = (z * LANDSCAPE_SIZE + x, (z + 1) * LANDSCAPE_SIZE + x,
            z * LANDSCAPE_SIZE + x + 1) ∨
      t = (z * LANDSCAPE_SIZE + x + 1, (z + 1) * LANDSCAPE_SIZE + x,
            (z + 1) * LANDSCAPE_SIZE + x + 1) := by
  simp only [fillIndices, List.mem_bind, List.mem_range, List.mem_cons,
    List.not_mem_nil, or_false]

/-- The y component of the face normal of the first triangle of any quad is
the product of the two grid spacings, 625/256. -/
lemma faceNormal_tri1_y (e : ℕ → ℚ) {z x : ℕ}
    (hz : z < LANDSCAPE_SIZE - 1) (hx : x < LANDSCAPE_SIZE - 1) :
    (faceNormal e (z * LANDSCAPE_SIZE + x, (z + 1) * LANDSCAPE_SIZE + x,
        z * LANDSCAPE_SIZE + x + 1)).y = 625 / 256 := by
  simp only [LANDSCAPE_SIZE] at hz hx
  have e1 : (z * LANDSCAPE_SIZE + x) % LANDSCAPE_SIZE = x := by
    simp only [LANDSCAPE_SIZE]; omega
  have e2 : (z * LANDSCAPE_SIZE + x) / LANDSCAPE_SIZE = z := by
    simp only [LANDSCAPE_SIZE]; omega
  have e3 : ((z + 1) * LANDSCAPE_SIZE + x) % LANDSCAPE_SIZE = x := by
    simp only [LANDSCAPE_SIZE]; omega
  have e4 : ((z + 1) * LANDSCAPE_SIZE + x) / LANDSCAPE_SIZE = z + 1 := by
    simp only [LANDSCAPE_SIZE]; omega
  have e5 : (z * LANDSCAPE_SIZE + x + 1) % LANDSCAPE_SIZE = x + 1 := by
    simp only [LANDSCAPE_SIZE]; omega
  have e6 : (z * LANDSCAPE_SIZE + x + 1) / LANDSCAPE_SIZE = z := by
    simp only [LANDSCAPE_SIZE]; omega
  simp only [faceNormal, vertexPos, e1, e2, e3, e4, e5, e6]
  simp only [vertexWorldX, vertexWorldZ, LANDSCAPE_SIZE, LANDSCAPE_SCALE]
  push_cast
  ring

/-- The y component of the face normal of the second triangle of any quad is
also 625/256. -/
lemma faceNormal_tri2_y (e : ℕ → ℚ) {z x : ℕ}
    (hz : z < LANDSCAPE_SIZE - 1) (hx : x < LANDSCAPE_SIZE - 1) :
    (faceNormal e (z * LANDSCAPE_SIZE + x + 1, (z + 1) * LANDSCAPE_SIZE + x,
        (z + 1) * LANDSCAPE_SIZE + x + 1)).y = 625 / 256 := by
  simp only [LANDSCAPE_SIZE] at hz hx
  have e1 : (z * LANDSCAPE_SIZE + x + 1) % LANDSCAPE_SIZE = x + 1 := by
    simp only [LANDSCAPE_SIZE]; omega
  have e2 : (z * LANDSCAPE_SIZE + x + 1) / LANDSCAPE_SIZE = z := by
    simp only [LANDSCAPE_SIZE]; omega
  have e3 : ((z + 1) * LANDSCAPE_SIZE + x) % LANDSCAPE_SIZE = x := by
    simp only [LANDSCAPE_SIZE]; omega
  have e4 : ((z + 1) * LANDSCAPE_SIZE + x) / LANDSCAPE_SIZE = z + 1 := by
    simp only [LANDSCAPE_SIZE]; omega
  have e5 : ((z + 1) * LANDSCAPE_SIZE + x + 1) % LANDSCAPE_SIZE = x + 1 := by
    simp only [LANDSCAPE_SIZE]; omega
  have e6 : ((z + 1) * LANDSCAPE_SIZE + x + 1) / LANDSCAPE_SIZE = z + 1 := by
    simp only [LANDSCAPE_SIZE]; omega
  simp only [faceNormal, vertexPos, e1, e2, e3, e4, e5, e6]
  simp only [vertexWorldX, vertexWorldZ, LANDSCAPE_SIZE, LANDSCAPE_SCALE]
  push_cast
  ring

/-- Every triangle of the terrain mesh has face normal y component equal to
the product 625/256 of the two grid spacings, whatever the elevations are. -/
lemma fillIndices_faceNormal_y (e : ℕ → ℚ) :
    fillIndices.Forall (fun t => (faceNormal e t).y = 625 / 256) := by
  rw [List.forall_iff_forall_mem]
  intro t ht
  rw [mem_fillIndices] at ht
  obtain ⟨z, hz, x, hx, ht | ht⟩ := ht <;> subst ht
  · exact faceNormal_tri1_y e hz hx
  · exact faceNormal_tri2_y e hz hx

/-- Every vertex of the grid is a corner of at least one mesh triangle. -/
lemma exists_incident_triangle (v : ℕ) (hv : v < LANDSCAPE_SIZE * LANDSCAPE_SIZE) :
    ∃ t ∈ fillIndices, v = t.1 ∨ v = t.2.1 ∨ v = t.2.2 := by
  simp only [LANDSCAPE_SIZE] at hv
  rcases Nat.lt_or_ge (v % 128) 127 with hx | hx <;>
    rcases Nat.lt_or_ge (v / 128) 127 with hz | hz
  · refine ⟨(v / 128 * LANDSCAPE_SIZE + v % 128,
      (v / 128 + 1) * LANDSCAPE_SIZE + v % 128,
      v / 128 * LANDSCAPE_SIZE + v % 128 + 1),
      mem_fillIndices.mpr ⟨v / 128, by simp only [LANDSCAPE_SIZE]; omega,
        v % 128, by simp only [LANDSCAPE_SIZE]; omega, Or.inl rfl⟩, ?_⟩
    simp only [LANDSCAPE_SIZE]
    omega
  · refine ⟨(126 * LANDSCAPE_SIZE + v % 128,
      (126 + 1) * LANDSCAPE_SIZE + v % 128,
      126 * LANDSCAPE_SIZE + v % 128 + 1),
      mem_fillIndices.mpr ⟨126, by simp only [LANDSCAPE_SIZE]; omega,
        v % 128, by simp only [LANDSCAPE_SIZE]; omega, Or.inl rfl⟩, ?_⟩
    simp only [LANDSCAPE_SIZE]
    omega
  · refine ⟨(v / 128 * LANDSCAPE_SIZE + 126, (v / 128 + 1) * LANDSCAPE_SIZE + 126,
      v / 128 * LANDSCAPE_SIZE + 126 + 1),
      mem_fillIndices.mpr ⟨v / 128, by simp only [LANDSCAPE_SIZE]; omega,
        126, by simp only [LANDSCAPE_SIZE]; omega, Or.inl rfl⟩, ?_⟩
    simp only [LANDSCAPE_SIZE]
    omega
  · refine ⟨(126 * LANDSCAPE_SIZE + 126 + 1, (126 + 1) * LANDSCAPE_SIZE + 126,
      (126 + 1) * LANDSCAPE_SIZE + 126 + 1),
      mem_fillIndices.mpr ⟨126, by simp only [LANDSCAPE_SIZE]; omega,
        126, by simp only [LANDSCAPE_SIZE]; omega, Or.inr rfl⟩, ?_⟩
    simp only [LANDSCAPE_SIZE]
    omega

/-- Slot values of addAt. -/
lemma addAt_y (f : ℕ → LandscapeVec3) (i : ℕ) (n : LandscapeVec3) (v : ℕ) :
    ((addAt f i n) v).y = if v = i then (f v).y + n.y else (f v).y := by
  unfold addAt
  split <;> rfl

/-- One accumulation step never decreases the y component of any slot when
the face normal's y component is nonnegative. -/
lemma accumStep_y_mono (e : ℕ → ℚ) (f : ℕ → LandscapeVec3) (t : ℕ × ℕ × ℕ)
    (v : ℕ) (hc : 0 ≤ (faceNormal e t).y) :
    (f v).y ≤ ((accumStep e f t) v).y := by
  unfold accumStep
  rw [addAt_y]
  split <;> [skip; skip] <;> rw [addAt_y] <;> split <;>
    [skip; skip; skip; skip] <;> rw [addAt_y] <;> split <;> linarith

/-- One accumulation step adds at least the face normal's y component into
the slot of each of the triangle's corners. -/
lemma accumStep_y_hit (e : ℕ → ℚ) (f : ℕ → LandscapeVec3) (t : ℕ × ℕ × ℕ)
    (v : ℕ) (hc : 0 ≤ (faceNormal e t).y)
    (hvt : v = t.1 ∨ v = t.2.1 ∨ v = t.2.2) :
    (f v).y + (faceNormal e t).y ≤ ((accumStep e f t) v).y := by
  unfold accumStep
  rw [addAt_y]
  rcases hvt with h | h | h <;> split <;> rw [addAt_y] <;> split <;>
    rw [addAt_y] <;> split <;> simp_all <;> linarith

/-- The accumulation fold never decreases the y component of any slot. -/
lemma foldl_accum_y_mono (e : ℕ → ℚ) (l : List (ℕ × ℕ × ℕ))
    (hall : ∀ t ∈ l, 0 ≤ (faceNormal e t).y) :
    ∀ (f : ℕ → LandscapeVec3) (v : ℕ),
      (f v).y ≤ ((l.foldl (accumStep e) f) v).y := by
  induction l with
  | nil => intro f v; exact le_refl _
  | cons t l ih =>
    intro f v
    simp only [List.foldl_cons]
    refine le_trans (accumStep_y_mono e f t v (hall t (List.mem_cons_self t l))) ?_
    exact ih (fun u hu => hall u (List.mem_cons_of_mem t hu)) (accumStep e f t) v

/-- If some triangle of the list has the vertex as a corner, the fold adds
at least that triangle's face normal y component into the slot. -/
lemma foldl_accum_y_ge (e : ℕ → ℚ) (l : List (ℕ × ℕ × ℕ))
    (hall : ∀ t ∈ l, 0 ≤ (faceNormal e t).y) (c : ℚ)
    (t0 : ℕ × ℕ × ℕ) (ht0 : t0 ∈ l) (hy : c ≤ (faceNormal e t0).y)
    (v : ℕ) (hvt : v = t0.1 ∨ v = t0.2.1 ∨ v = t0.2.2) :
    ∀ f : ℕ → LandscapeVec3, (f v).y + c ≤ ((l.foldl (accumStep e) f) v).y := by
  induction l with
  | nil => exact absurd ht0 (List.not_mem_nil t0)
  | cons t l ih =>
    intro f
    simp only [List.foldl_cons]
    rcases List.mem_cons.mp ht0 with h0 | h0
    · subst h0
      refine le_trans ?_
        (foldl_accum_y_mono e l (fun u hu => hall u (List.mem_cons_of_mem t0 hu))
          (accumStep e f t0) v)
      have := accumStep_y_hit e f t0 v (hall t0 (List.mem_cons_self t0 l)) hvt
      linarith
    · refine le_trans ?_
        (ih (fun u hu => hall u (List.mem_cons_of_mem t hu)) h0 (accumStep e f t))
      have := accumStep_y_mono e f t v (hall t (List.mem_cons_self t l))
      linarith

/-- The accumulated (pre-normalisation) vertex normal of every grid vertex
has y component at least 625/256. -/
lemma accumNormals_y_pos (e : ℕ → ℚ) (v : ℕ)
    (hv : v < LANDSCAPE_SIZE * LANDSCAPE_SIZE) :
    625 / 256 ≤ (accumNormals e fillIndices v).y := by
  obtain ⟨t0, ht0, hvt⟩ := exists_incident_triangle v hv
  have hally := fillIndices_faceNormal_y e
  rw [List.forall_iff_forall_mem] at hally
  have hall : ∀ t ∈ fillIndices, 0 ≤ (faceNormal e t).y := by
    intro t ht
    rw [hally t ht]
    norm_num
  have hkey := foldl_accum_y_ge e fillIndices hall (625 / 256) t0 ht0
    (le_of_eq (hally t0 ht0).symm) v hvt (fun _ => ⟨0, 0, 0⟩)
  simpa [accumNormals] using hkey

/-- Normalisation of an accumulated vector with positive y component: the
length guard holds, the result is unit length, its y component stays
positive, and the clamped slope angle is below pi/2. -/
lemma normalizeVec_unit (n : LandscapeVec3) (hy : 0 < n.y) :
    0 < Real.sqrt ((n.x : ℝ) ^ 2 + (n.y : ℝ) ^ 2 + (n.z : ℝ) ^ 2) ∧
    (normalizeVec n).1 ^ 2 + (normalizeVec n).2.1 ^ 2 + (normalizeVec n).2.2 ^ 2 = 1 ∧
    0 < (normalizeVec n).2.1 ∧
    Real.arccos (min 1 (max (-1) (normalizeVec n).2.1)) < Real.pi / 2 := by
  have hyr : (0 : ℝ) < (n.y : ℝ) := by exact_mod_cast hy
  have hs : (0 : ℝ) < (n.x : ℝ) ^ 2 + (n.y : ℝ) ^ 2 + (n.z : ℝ) ^ 2 := by
    nlinarith [sq_nonneg ((n.x : ℝ)), sq_nonneg ((n.z : ℝ))]
  have hlen : 0 < Real.sqrt ((n.x : ℝ) ^ 2 + (n.y : ℝ) ^ 2 + (n.z : ℝ) ^ 2) :=
    Real.sqrt_pos.mpr hs
  have hsq : Real.sqrt ((n.x : ℝ) ^ 2 + (n.y : ℝ) ^ 2 + (n.z : ℝ) ^ 2) ^ 2 =
      (n.x : ℝ) ^ 2 + (n.y : ℝ) ^ 2 + (n.z : ℝ) ^ 2 := Real.sq_sqrt (le_of_lt hs)
  have hvn : normalizeVec n =
      ((n.x : ℝ) / Real.sqrt ((n.x : ℝ) ^ 2 + (n.y : ℝ) ^ 2 + (n.z : ℝ) ^ 2),
       (n.y : ℝ) / Real.sqrt ((n.x : ℝ) ^ 2 + (n.y : ℝ) ^ 2 + (n.z : ℝ) ^ 2),
       (n.z : ℝ) / Real.sqrt ((n.x : ℝ) ^ 2 + (n.y : ℝ) ^ 2 + (n.z : ℝ) ^ 2)) := by
    simp only [normalizeVec]
    rw [if_pos hlen]
  have hfy : 0 < (normalizeVec n).2.1 := by
    simp only [hvn]
    exact div_pos hyr hlen
  have hfy1 : (normalizeVec n).2.1 ≤ 1 := by
    simp only [hvn]
    rw [div_le_one hlen]
    have hy2 : (n.y : ℝ) ^ 2 ≤ (n.x : ℝ) ^ 2 + (n.y : ℝ) ^ 2 + (n.z : ℝ) ^ 2 := by
      nlinarith [sq_nonneg ((n.x : ℝ)), sq_nonneg ((n.z : ℝ))]
    exact (Real.le_sqrt (le_of_lt hyr) (le_of_lt hs)).mpr hy2
  refine ⟨hlen, ?_, hfy, ?_⟩
  · simp only [hvn]
    rw [div_pow, div_pow, div_pow, div_add_div_same, div_add_div_same, hsq]
    exact div_self (ne_of_gt hs)
  · have hmax : max (-1 : ℝ) (normalizeVec n).2.1 = (normalizeVec n).2.1 :=
      max_eq_right (le_trans (by norm_num) (le_of_lt hfy))
    have hmin : min (1 : ℝ) (normalizeVec n).2.1 = (normalizeVec n).2.1 :=
      min_eq_right hfy1
    rw [hmax, hmin]
    exact Real.arccos_lt_pi_div_two.mpr hfy

/-- C10: for every elevation field and every grid vertex, (a) every mesh
triangle's face normal has y component exactly 625/256 (the product of the
two positive grid spacings 200/128, independent of the elevation values),
(b) the accumulated per-vertex normal has strictly positive y, (c) its
length is strictly positive, so the zero-length skip branch of
computeNormals is never taken, (d) the stored vertex normal is unit length,
(e) its y component is strictly positive, and (f) the clamped slope angle
arccos(clamp(normal.y, -1, 1)) that the three placement validators sample is
well defined and strictly less than pi/2. -/
theorem terrain_normals_upward (e : ℕ → ℚ)
    (v : Fin (LANDSCAPE_SIZE * LANDSCAPE_SIZE)) :
    fillIndices.Forall (fun t => (faceNormal e t).y = 625 / 256) ∧
    0 < (accumNormals e fillIndices (v : ℕ)).y ∧
    0 < Real.sqrt (((accumNormals e fillIndices (v : ℕ)).x : ℝ) ^ 2 +
        ((accumNormals e fillIndices (v : ℕ)).y : ℝ) ^ 2 +
        ((accumNormals e fillIndices (v : ℕ)).z : ℝ) ^ 2) ∧
    (vertexNormal e (v : ℕ)).1 ^ 2 + (vertexNormal e (v : ℕ)).2.1 ^ 2 +
        (vertexNormal e (v : ℕ)).2.2 ^ 2 = 1 ∧
    0 < (vertexNormal e (v : ℕ)).2.1 ∧
    Real.arccos (min 1 (max (-1) (vertexNormal e (v : ℕ)).2.1)) < Real.pi / 2 := by
  have hyq : 0 < (accumNormals e fillIndices (v : ℕ)).y :=
    lt_of_lt_of_le (by norm_num) (accumNormals_y_pos e (v : ℕ) v.isLt)
  obtain ⟨hlen, hunit, hypos, harc⟩ :=
    normalizeVec_unit (accumNormals e fillIndices (v : ℕ)) hyq
  exact ⟨fillIndices_faceNormal_y e, hyq, hlen, hunit, hypos, harc⟩
